import Mathlib

/-!
Shallow embedding of the deployment core of the `decentraland-rust`
repository: the scene deployer (`scene-deployer/src/lib.rs`) and the
content-client query surface (`catalyst/src/content_client.rs`).

Byte buffers are modelled as `List Nat`. Functionality provided by
external crates (the `cid` multihash encoding, `serde_json`
serialization and parsing, `PathBuf` parsing, the wall clock) is kept
abstract as explicit function parameters bundled in `Ambient`; the
repository's own control flow is translated literally.
-/

/-- Raw byte buffers (`Vec<u8>` / `&[u8]`). -/
abbrev Bytes := List Nat

/-- Spatial coordinate pair (`dcl_common::Parcel`, a two-field tuple struct
whose components are formatted as `x,y`). -/
structure Parcel where
  x : Int
  y : Int
deriving DecidableEq, Repr

/-- Content-addressed identifier wrapping its textual hash
(`catalyst::ContentId`). -/
structure ContentId where
  hash : String
deriving DecidableEq, Repr

/-- Entity identifier wrapping its textual hash (`catalyst::EntityId`). -/
structure EntityId where
  hash : String
deriving DecidableEq, Repr

/-- Closed set of entity kinds (`catalyst::EntityType`). -/
inductive EntityType where
  | profile
  | scene
  | wearable
  | emote
deriving DecidableEq, Repr

/-- Component of a filesystem path. Rust `Path::starts_with` compares whole
components, and `./2dcl`, `/2dcl` and `2dcl` parse to a current-directory,
root-directory or bare normal component followed by the directory name. -/
inductive PComp where
  | cur
  | root
  | norm (s : String)
deriving DecidableEq, Repr

/-- Filesystem path as its parsed component list (Rust `std::path::PathBuf`). -/
abbrev PathBuf := List PComp

/-- Rust `Path::starts_with`: the right path's components are a leading run
of the left path's components. -/
def pathStartsWith (p q : PathBuf) : Bool :=
  q.isPrefixOf p

/-- One published file: relative path plus content identifier
(`catalyst::ContentFile`). -/
structure ContentFile where
  filename : PathBuf
  cid : ContentId
deriving DecidableEq, Repr

/-- Scene section of the Scene-kind metadata: the authoritative parcel list
(`scene_3d.scene.parcels` in `deploy`). Modelled from the spec: the
metadata type lives in a crate outside the provided sources; only the
parcel list is consumed by the deployer. -/
structure SceneData where
  parcels : List Parcel
deriving DecidableEq, Repr

/-- Scene-kind metadata payload carrying its scene section. Modelled from
the spec: for Scene kind the metadata carries the authoritative pointer
list used for validation. -/
structure Scene3D where
  scene : SceneData
deriving DecidableEq, Repr

/-- Kind-dependent manifest metadata. Modelled from the spec: an opaque
payload; only the Scene variant matters to the validator, every other
shape is collapsed into `other`. -/
inductive Metadata where
  | scene (scene_3d : Scene3D)
  | other
deriving DecidableEq, Repr

/-- Entity manifest as constructed and consumed by the scene deployer:
id, version tag, kind, pointers, timestamp, content list, optional
metadata. The `catalyst` crate file provided under the sources only shows
the id and kind fields; the remaining fields are modelled from the
construction site in `build_entity_scene` and the spec's data model. -/
structure Entity where
  id : EntityId
  version : String
  kind : EntityType
  pointers : List String
  timestamp : Nat
  content : List ContentFile
  metadata : Option Metadata
deriving DecidableEq, Repr

/-- One part to be uploaded: content id, raw bytes, MIME string
(`scene-deployer`'s `FileData`). -/
structure FileData where
  cid : String
  bytes : Bytes
  mime_str : String
deriving DecidableEq, Repr

/-- Remote record of an entity active on some parcels, as returned by the
remote lookup in `deploy`. Modelled from the spec: the deployer reads its
`pointers` field; the id identifies the claiming entity. -/
structure SceneFile where
  id : EntityId
  pointers : List String
deriving DecidableEq, Repr

/-- Authentication chain link (`dcl_crypto::AuthLink`): five variants, each
carrying a textual payload and signature. -/
inductive AuthLink where
  | signer (payload signature : String)
  | ecdsaPersonalEphemeral (payload signature : String)
  | ecdsaPersonalSignedEntity (payload signature : String)
  | ecdsaEip1654Ephemeral (payload signature : String)
  | ecdsaEip1654SignedEntity (payload signature : String)
deriving DecidableEq, Repr

/-- Ordered chain of authentication links (`dcl_crypto::AuthChain`). -/
abbrev AuthChain := List AuthLink

/-- Wire name of a link's kind (`auth_link.kind()`). Modelled from the
spec: the kind names live in the crypto crate outside the provided
sources; their exact spellings are not load-bearing for any claim. -/
def AuthLink.kind : AuthLink → String
  | .signer _ _ => "SIGNER"
  | .ecdsaPersonalEphemeral _ _ => "ECDSA_EPHEMERAL"
  | .ecdsaPersonalSignedEntity _ _ => "ECDSA_SIGNED_ENTITY"
  | .ecdsaEip1654Ephemeral _ _ => "ECDSA_EIP_1654_EPHEMERAL"
  | .ecdsaEip1654SignedEntity _ _ => "ECDSA_EIP_1654_SIGNED_ENTITY"

/-- Body of one multipart part: either a text field or a byte payload with
file name and MIME type (`reqwest::multipart::Part`). -/
inductive PartBody where
  | text (value : String)
  | bytes (data : Bytes) (file_name : String) (mime : String)
deriving DecidableEq, Repr

/-- Named multipart part. -/
structure FormPart where
  name : String
  body : PartBody
deriving DecidableEq, Repr

/-- Multipart form as its ordered part list (`reqwest::multipart::Form`);
`Form::part` appends and never collapses duplicate names. -/
abbrev Form := List FormPart

/-- External functionality the deployer calls into, kept abstract: the
`cid` crate's digest-and-encode (spec 4.1's `identify`), `serde_json`
serialization of a manifest to its canonical bytes, `serde_json` parsing
of bytes back into a manifest, `PathBuf` parsing of a path string, and
the wall-clock millisecond timestamp taken at build time. -/
structure Ambient where
  cidEncode : Bytes → String
  serdeSerializeEntity : Entity → Bytes
  serdeParseEntity : Bytes → Option Entity
  parsePathBuf : String → PathBuf
  nowMillis : Nat

/-- Content identifier of a byte buffer (`get_cid` in
`scene-deployer/src/lib.rs`): delegate to the external multihash/CID
encoding. -/
def get_cid (A : Ambient) (content : Bytes) : String :=
  A.cidEncode content

/-- Pointer strings from a parcel list (`parcels_vec_to_strings_vec`):
format every parcel as `x,y`. -/
def parcels_vec_to_strings_vec (parcels : List Parcel) : List String :=
  parcels.map (fun parcel => toString parcel.x ++ "," ++ toString parcel.y)

/-- First file of the deployment data whose MIME type is the generic binary
type and whose bytes parse as an entity manifest (`find_entity`). -/
def find_entity (A : Ambient) : List FileData → Option Entity
  | [] => none
  | file :: rest =>
    if file.mime_str = "application/octet-stream" then
      match A.serdeParseEntity file.bytes with
      | some scene_file => some scene_file
      | none => find_entity A rest
    else
      find_entity A rest

/-- Outcome of the validation phase of `deploy`: fail with
`InvalidPointers { parcels_found, expected_parcels }`, fail with
`MissingSceneEntity`, or proceed to form assembly and submission. -/
inductive DeployOutcome where
  | invalidPointers (parcels_found expected_parcels : List String)
  | missingSceneEntity
  | submit
deriving DecidableEq, Repr

/-- Validation phase of `deploy` (`scene-deployer/src/lib.rs`, lines
28-54), with the remote authority's answer to
`scene_entities_for_parcels` supplied as the function `lookup`: find the
manifest among the files; when it carries Scene metadata, first compare
the metadata's parcel strings against the manifest's pointers, then
consult the remote lookup and reject a non-empty answer that has more
than one entity or whose first entity's pointers differ from the
manifest's; otherwise proceed to submission. The remote-conflict check
on the lookup's answer (`if !scene_files.is_empty() && (scene_files.len()
> 1 || scene_files[0].pointers != entity.pointers)`) is the
`remoteConflict` stage; indexing `scene_files[0]` is guarded by the
non-emptiness test, rendered here as the match on the answer list. -/
def remoteConflict (pointers : List String) : List SceneFile → DeployOutcome
  | [] => DeployOutcome.submit
  | sf0 :: rest =>
    if (sf0 :: rest).length > 1 ∨ sf0.pointers ≠ pointers then
      DeployOutcome.invalidPointers pointers sf0.pointers
    else
      DeployOutcome.submit

/-- Scene-kind branch of the validation: compare the metadata's parcel
strings against the manifest's pointers, then apply the remote-conflict
check to the lookup's answer. -/
def sceneValidate (pointers : List String) (scene_3d : Scene3D)
    (lookup : List Parcel → List SceneFile) : DeployOutcome :=
  let expected_parcels := parcels_vec_to_strings_vec scene_3d.scene.parcels
  if expected_parcels ≠ pointers then
    DeployOutcome.invalidPointers pointers expected_parcels
  else
    remoteConflict pointers (lookup scene_3d.scene.parcels)

def deployValidate (A : Ambient) (deploy_data : List FileData)
    (lookup : List Parcel → List SceneFile) : DeployOutcome :=
  match find_entity A deploy_data with
  | none => .missingSceneEntity
  | some entity =>
    match entity.metadata with
    | some (Metadata.scene scene_3d) => sceneValidate entity.pointers scene_3d lookup
    | _ => .submit

/-- Predicate of the transient-output removal loop in `build_entity_scene`:
the filename starts with `./2dcl`, `/2dcl` or `2dcl` under the
component-wise `Path::starts_with`. -/
def isTransientFile (c : ContentFile) : Bool :=
  pathStartsWith c.filename [PComp.cur, PComp.norm "2dcl"]
    || pathStartsWith c.filename [PComp.root, PComp.norm "2dcl"]
    || pathStartsWith c.filename [PComp.norm "2dcl"]

/-- One backwards pass of the removal loop
`for i in (0..content.len()).rev() { if ... { content.remove(i) } }`:
the counter `i+1` means index `i` is inspected next, then the loop
continues below it. Out-of-range indices leave the list unchanged. -/
def removePass (content : List ContentFile) : Nat → List ContentFile
  | 0 => content
  | i + 1 =>
    let content' :=
      match content[i]? with
      | some c => if isTransientFile c then content.eraseIdx i else content
      | none => content
    removePass content' i

/-- Transient-output removal stage of `build_entity_scene`: run the
backwards removal loop over the whole inherited content list. -/
def removeTransient (content : List ContentFile) : List ContentFile :=
  removePass content content.length

/-- MIME inference of `build_entity_scene`: `.png` paths get the image
type, everything else the generic binary type. -/
def mimeFor (path : String) : String :=
  if path.endsWith ".png" then "image/png" else "application/octet-stream"

/-- Per-file staging step of `build_entity_scene`'s loop over the local
files: compute the cid, append a `ContentFile` to the content list and a
`FileData` to the staged payload list. -/
def stageFile (A : Ambient) (acc : List ContentFile × List FileData)
    (pb : String × Bytes) : List ContentFile × List FileData :=
  let cid := get_cid A pb.2
  (acc.1 ++ [{ filename := A.parsePathBuf pb.1, cid := ContentId.mk cid }],
   acc.2 ++ [{ cid := cid, bytes := pb.2, mime_str := mimeFor pb.1 }])

/-- Stages 1-4 of `build_entity_scene`: inherit the previous manifest's
content list, drop transient entries, stage every local file, and
construct the new manifest with version `v3`, Scene kind, the supplied
pointers, the build timestamp, and the id left as the empty sentinel.
Returns the staged file payloads and the manifest before id computation.
The local files are a key-value list standing for the `HashMap` in its
iteration order. -/
def build_entity_scene_core (A : Ambient) (pointers : List String)
    (files : List (String × Bytes)) (entity : Entity) :
    List FileData × Entity :=
  let content := removeTransient entity.content
  let staged := files.foldl (stageFile A) (content, [])
  (staged.2,
   { id := EntityId.mk "", version := "v3", kind := EntityType.scene,
     pointers := pointers, timestamp := A.nowMillis, content := staged.1,
     metadata := entity.metadata })

/-- Manifest builder `build_entity_scene` (`scene-deployer/src/lib.rs`,
lines 149-209): after the staging stages, serialize the manifest with its
id still empty, compute the cid of those bytes as the manifest's own id,
and append one final `FileData` carrying exactly the serialized bytes
that were hashed, named by that cid, with the generic binary MIME type.
Returns the staged payloads plus the manifest entry, and the entity id. -/
def build_entity_scene (A : Ambient) (pointers : List String)
    (files : List (String × Bytes)) (entity : Entity) :
    List FileData × EntityId :=
  let core := build_entity_scene_core A pointers files entity
  let entity_file := A.serdeSerializeEntity core.2
  let entity_id := get_cid A entity_file
  (core.1 ++ [{ cid := entity_id, bytes := entity_file,
                mime_str := "application/octet-stream" }],
   EntityId.mk entity_id)

/-- Final value of the local manifest variable in `build_entity_scene`
after the assignment `entity.id = EntityId(entity_id)`: the constructed
manifest with its own id filled in. -/
def build_entity_scene_entity (A : Ambient) (pointers : List String)
    (files : List (String × Bytes)) (entity : Entity) : Entity :=
  let core := build_entity_scene_core A pointers files entity
  let entity_file := A.serdeSerializeEntity core.2
  { core.2 with id := EntityId.mk (get_cid A entity_file) }

/-- Multipart fields emitted for one auth link at index `i` in
`build_entity_form_data_for_deployment`: a type field, then a payload and
a signature field; every variant of the match in the source emits the
same two data fields. -/
def authLinkParts (i : Nat) (auth_link : AuthLink) : Form :=
  { name := "authChain[" ++ toString i ++ "][type]",
    body := PartBody.text auth_link.kind } ::
  match auth_link with
  | .signer payload signature
  | .ecdsaPersonalEphemeral payload signature
  | .ecdsaPersonalSignedEntity payload signature
  | .ecdsaEip1654Ephemeral payload signature
  | .ecdsaEip1654SignedEntity payload signature =>
    [{ name := "authChain[" ++ toString i ++ "][payload]",
       body := PartBody.text payload },
     { name := "authChain[" ++ toString i ++ "][signature]",
       body := PartBody.text signature }]

/-- Auth-chain portion of the envelope: the fields of every link, indexed
from `i` upwards (the source zips the chain with `0..`). -/
def authChainParts (i : Nat) : AuthChain → Form
  | [] => []
  | auth_link :: rest => authLinkParts i auth_link ++ authChainParts (i + 1) rest

/-- Binary part appended for one staged file: payload bytes, file name and
part name both set to the file's cid, with its MIME type. -/
def filePart (file : FileData) : FormPart :=
  { name := file.cid, body := PartBody.bytes file.bytes file.cid file.mime_str }

/-- Transport envelope assembly `build_entity_form_data_for_deployment`
(`scene-deployer/src/lib.rs`, lines 61-141): one text part named
`entityId`, then the auth-chain fields of every link in order, then one
binary part per `FileData`, appended in order by `Form::part`. -/
def build_entity_form_data_for_deployment (entity_id : String)
    (deploy_data : List FileData) (auth_chain : AuthChain) : Form :=
  ({ name := "entityId", body := PartBody.text entity_id } ::
    authChainParts 0 auth_chain) ++ deploy_data.map filePart

/-- Whether a form part carries a byte payload (as opposed to a text
field). -/
def isBytesPart (p : FormPart) : Bool :=
  match p.body with
  | PartBody.bytes _ _ _ => true
  | PartBody.text _ => false

/-- Existence probe `content_file_exists`
(`catalyst/src/content_client.rs`, lines 80-86), with the HEAD response's
status code supplied as a number: the result is the comparison of the
status against `StatusCode::OK`, which is exactly 200. -/
def content_file_exists (status : Nat) : Bool :=
  status == 200

/-- HTTP success class (2xx) as the spec's vocabulary uses it: the spec's
`ServerError` is a non-2xx status, and its §4.6 calls a probe answer a
success accordingly. Stated from the spec's words for comparison with
`content_file_exists`. -/
def specSuccessStatus (status : Nat) : Bool :=
  200 ≤ status && status < 300

/-- Opening curly brace character, written by code to avoid brace-sensitive
contexts. -/
def lbrace : Char := '\x7b'

/-- Rust `str::find(char)`: position of the first occurrence of the
character, if any. -/
def strFind (s : String) (c : Char) : Option Nat :=
  s.data.findIdx? (fun a => a = c)

/-- Guard of the parsing loop in `snapshot_entities`:
`line.find('\x7b') == Some(0)`, that is, the line's very first character
is the opening brace. -/
def lineStartsRecord (line : String) : Bool :=
  strFind line lbrace == some 0

/-- Character-level split on newline characters; always returns at least
one (possibly empty) segment, with a trailing empty segment when the
input ends in a newline. -/
def splitNewlines : List Char → List (List Char)
  | [] => [[]]
  | c :: rest =>
    match splitNewlines rest with
    | [] => []
    | cur :: done => if c = '\n' then [] :: cur :: done else (c :: cur) :: done

/-- Rust `str::lines`: split on newlines; every newline-terminated segment
has a trailing carriage return (from a CRLF ending) stripped, and a final
empty segment (from a trailing newline) produces no line. -/
def rustLines (s : String) : List String :=
  let segs := splitNewlines s.data
  let body := segs.dropLast.map
    (fun cs => if cs.getLast? = some '\x0d' then cs.dropLast else cs)
  let lastSeg := (segs.getLast?).getD []
  let all := if lastSeg = [] then body else body ++ [lastSeg]
  all.map (fun cs => String.mk cs)

/-- Parsing loop of `snapshot_entities`
(`catalyst/src/content_client.rs`, lines 210-221), with `serde_json`'s
line parser supplied as `parseLine`: walk the lines in order; a line
whose first character is the opening brace is parsed and its record
pushed, and a parse failure aborts the whole call through `?`; every
other line is passed over. -/
def parseSnapshotLines {T : Type} (parseLine : String → Except String T) :
    List String → Except String (List T)
  | [] => Except.ok []
  | line :: rest =>
    if lineStartsRecord line then
      match parseLine line with
      | Except.error e => Except.error e
      | Except.ok x =>
        match parseSnapshotLines parseLine rest with
        | Except.error e => Except.error e
        | Except.ok xs => Except.ok (x :: xs)
    else
      parseSnapshotLines parseLine rest

/-- Parsing stage of `snapshot_entities`: split the fetched index document
into lines and run the parsing loop (the network fetch preceding it is
I/O and outside the model). -/
def snapshot_entities {T : Type} (parseLine : String → Except String T)
    (text : String) : Except String (List T) :=
  parseSnapshotLines parseLine (rustLines text)

/-- Sequential fallible map over a list, failing at the first error: the
specification-side combinator used to characterize the parsing loop. -/
def traverseExcept {T : Type} (f : String → Except String T) :
    List String → Except String (List T)
  | [] => Except.ok []
  | a :: as =>
    match f a with
    | Except.error e => Except.error e
    | Except.ok x =>
      match traverseExcept f as with
      | Except.error e => Except.error e
      | Except.ok xs => Except.ok (x :: xs)

/-- Decidable equality of fallible results, needed to evaluate the
snapshot parser on concrete documents. -/
instance {e a : Type} [DecidableEq e] [DecidableEq a] : DecidableEq (Except e a)
  | Except.error x, Except.error y =>
    if h : x = y then Decidable.isTrue (by rw [h])
    else Decidable.isFalse (by intro hc; cases hc; exact h rfl)
  | Except.error _, Except.ok _ => Decidable.isFalse (by intro hc; cases hc)
  | Except.ok _, Except.error _ => Decidable.isFalse (by intro hc; cases hc)
  | Except.ok x, Except.ok y =>
    if h : x = y then Decidable.isTrue (by rw [h])
    else Decidable.isFalse (by intro hc; cases hc; exact h rfl)

/-- Deterministic stand-in for the external CID encoding, used to evaluate
the development on concrete inputs: a function of the byte content only. -/
def cidByLen : Bytes → String :=
  fun b => "cid-" ++ toString b.length

/-- Concrete id-sensitive manifest serialization for evaluation: a manifest
with the empty sentinel id serializes differently from one with a
populated id, as a faithful canonical serializer must, since the id is
one of the manifest's serialized fields. -/
def serIdSens : Entity → Bytes :=
  fun e => if e.id = EntityId.mk "" then [5, 5] else [1, 2, 3]

/-- Concrete path parsing for evaluation: a single normal component. -/
def pathSimple : String → PathBuf :=
  fun s => [PComp.norm s]

/-- Concrete manifest parser for evaluation: the byte buffer `[1]` parses
as the given manifest, everything else fails to parse. -/
def parseTo (e : Entity) : Bytes → Option Entity :=
  fun b => if b = [1] then some e else none

/-- Concrete ambient whose parser recognizes the given manifest. -/
def ambOf (e : Entity) : Ambient :=
  { cidEncode := cidByLen, serdeSerializeEntity := serIdSens,
    serdeParseEntity := parseTo e, parsePathBuf := pathSimple,
    nowMillis := 1000 }

/-- Concrete ambient for exercising the manifest builder. -/
def ambBuild : Ambient :=
  { cidEncode := cidByLen, serdeSerializeEntity := serIdSens,
    serdeParseEntity := fun _ => none, parsePathBuf := pathSimple,
    nowMillis := 1000 }

/-- Deployment data holding exactly one generic-binary file whose bytes
parse as a manifest under `parseTo`. -/
def ddOne : List FileData :=
  [{ cid := "file-cid", bytes := [1], mime_str := "application/octet-stream" }]

/-- Candidate manifest on pointers `0,0` and `0,1`, with Scene metadata
declaring the same two parcels in the same order. -/
def entTwoParcels : Entity :=
  { id := EntityId.mk "e", version := "v3", kind := EntityType.scene,
    pointers := ["0,0", "0,1"], timestamp := 0, content := [],
    metadata := some (Metadata.scene { scene := { parcels := [{ x := 0, y := 0 }, { x := 0, y := 1 }] } }) }

/-- Candidate manifest on the single pointer `0,0`, with matching Scene
metadata. -/
def entOneParcel : Entity :=
  { id := EntityId.mk "e", version := "v3", kind := EntityType.scene,
    pointers := ["0,0"], timestamp := 0, content := [],
    metadata := some (Metadata.scene { scene := { parcels := [{ x := 0, y := 0 }] } }) }

/-- Candidate manifest whose metadata is present but not of Scene kind. -/
def entNonScene : Entity :=
  { id := EntityId.mk "e", version := "v3", kind := EntityType.scene,
    pointers := ["0,0"], timestamp := 0, content := [],
    metadata := some Metadata.other }

/-- Previous manifest with empty content and no metadata, used as the
baseline input to the manifest builder. -/
def entEmpty : Entity :=
  { id := EntityId.mk "", version := "v3", kind := EntityType.scene,
    pointers := [], timestamp := 0, content := [], metadata := none }

/-- Concrete line parser standing for `serde_json` on a fixture document:
exactly the object line `\x7b"a":1\x7d` parses (to the record `1`),
every other line is malformed. -/
def c6Parse : String → Except String Nat :=
  fun line => if line = "\x7b\"a\":1\x7d" then Except.ok 1 else Except.error "malformed"

/-- Concrete line parser that accepts every line, used to show that a
whitespace-prefixed record line is passed over without ever being
offered to the parser. -/
def alwaysOkParse : String → Except String Nat :=
  fun _ => Except.ok 0

/-- Content entry staged for one local file: parsed path plus the cid of
its bytes (the element the builder's loop appends to the content list). -/
def stagedContentEntry (A : Ambient) (pb : String × Bytes) : ContentFile :=
  { filename := A.parsePathBuf pb.1, cid := ContentId.mk (get_cid A pb.2) }

/-- File payload staged for one local file: cid of its bytes, the bytes,
and the inferred MIME type (the element the builder's loop appends to
the staged payload list). -/
def stagedFileData (A : Ambient) (pb : String × Bytes) : FileData :=
  { cid := get_cid A pb.2, bytes := pb.2, mime_str := mimeFor pb.1 }

/-- Folding the staging step over the local files appends exactly one
content entry and one staged payload per file, in order, after the
accumulators. -/
theorem stageFile_foldl (A : Ambient) (files : List (String × Bytes)) :
    ∀ c d, files.foldl (stageFile A) (c, d) =
      (c ++ files.map (stagedContentEntry A), d ++ files.map (stagedFileData A)) := by
  induction files with
  | nil => intro c d; simp
  | cons pb fs ih =>
    intro c d
    simp only [List.foldl_cons, List.map_cons]
    rw [show stageFile A (c, d) pb
          = (c ++ [stagedContentEntry A pb], d ++ [stagedFileData A pb]) from rfl, ih]
    simp

/-- The backwards removal loop, run down from index `i`, filters the
transient entries out of the first `i` elements and leaves the rest
untouched. -/
theorem removePass_eq : ∀ (i : Nat) (content : List ContentFile), i ≤ content.length →
    removePass content i
      = (content.take i).filter (fun c => !isTransientFile c) ++ content.drop i := by
  intro i
  induction i with
  | zero => intro content _; simp [removePass]
  | succ i ih =>
    intro content h
    have hi : i < content.length := Nat.lt_of_succ_le h
    have hget : content[i]? = some content[i] := List.getElem?_eq_getElem hi
    have htake : content.take (i + 1)
        = content.take i ++ [content[i]] := by
      rw [List.take_succ, hget]; rfl
    have hstep : removePass content (i + 1)
        = removePass (match content[i]? with
            | some c => if isTransientFile c then content.eraseIdx i else content
            | none => content) i := rfl
    by_cases hp : isTransientFile content[i]
    · have herase : content.eraseIdx i = content.take i ++ content.drop (i + 1) :=
        List.eraseIdx_eq_take_drop_succ content i
      have hlen : i ≤ (content.eraseIdx i).length := by
        rw [herase]
        simp only [List.length_append, List.length_take]
        omega
      have hloop : removePass content (i + 1) = removePass (content.eraseIdx i) i := by
        rw [hstep, hget]
        simp [hp]
      rw [hloop, ih _ hlen, herase]
      have h1 : ((content.take i ++ content.drop (i + 1)).take i) = content.take i := by
        rw [List.take_append_of_le_length (by simp; omega), List.take_take]
        simp
      have h2 : ((content.take i ++ content.drop (i + 1)).drop i) = content.drop (i + 1) := by
        rw [List.drop_append_of_le_length (by simp; omega)]
        have hnil : (content.take i).drop i = [] :=
          List.drop_eq_nil_of_le (by simp)
        rw [hnil]; rfl
      have h3 : List.filter (fun c => !isTransientFile c) [content[i]] = [] := by
        simp [hp]
      rw [h1, h2, htake, List.filter_append, h3, List.append_nil]
    · have hloop : removePass content (i + 1) = removePass content i := by
        rw [hstep, hget]
        simp [hp]
      have hdrop : content.drop i = content[i] :: content.drop (i + 1) :=
        List.drop_eq_getElem_cons hi
      have h3 : List.filter (fun c => !isTransientFile c) [content[i]] = [content[i]] := by
        simp [hp]
      rw [hloop, ih _ (Nat.le_of_lt hi), htake, List.filter_append, h3, hdrop]
      simp

/-- The transient-removal stage is exactly an order-preserving filter of
the inherited content list. -/
theorem removeTransient_eq_filter (content : List ContentFile) :
    removeTransient content = content.filter (fun c => !isTransientFile c) := by
  unfold removeTransient
  rw [removePass_eq content.length content (Nat.le_refl _)]
  simp

/-- Every auth link contributes exactly three text fields and no byte
part. -/
theorem authLinkParts_filter_bytes (i : Nat) (l : AuthLink) :
    (authLinkParts i l).filter isBytesPart = [] := by
  cases l <;> simp [authLinkParts, isBytesPart]

/-- Every auth link contributes exactly three fields. -/
theorem authLinkParts_length (i : Nat) (l : AuthLink) :
    (authLinkParts i l).length = 3 := by
  cases l <;> simp [authLinkParts]

/-- The auth-chain portion of the envelope has three fields per link and
no byte parts. -/
theorem authChainParts_shape (chain : AuthChain) : ∀ i,
    (authChainParts i chain).length = 3 * chain.length
      ∧ (authChainParts i chain).filter isBytesPart = [] := by
  induction chain with
  | nil => intro i; simp [authChainParts]
  | cons l rest ih =>
    intro i
    have h := ih (i + 1)
    simp only [authChainParts, List.length_append, List.filter_append,
      authLinkParts_length, authLinkParts_filter_bytes, h.1, h.2, List.length_cons]
    constructor
    · ring
    · rfl

/-- The parsing loop equals the sequential fallible parse of exactly the
lines whose first character is the opening brace. -/
theorem parseSnapshotLines_eq {T : Type} (p : String → Except String T)
    (ls : List String) :
    parseSnapshotLines p ls = traverseExcept p (ls.filter lineStartsRecord) := by
  induction ls with
  | nil => rfl
  | cons l rest ih =>
    by_cases h : lineStartsRecord l
    · cases hpl : p l with
      | error e =>
        simp [parseSnapshotLines, List.filter_cons, h, traverseExcept, hpl]
      | ok x =>
        simp [parseSnapshotLines, List.filter_cons, h, traverseExcept, hpl, ih]
    · simp [parseSnapshotLines, List.filter_cons, h, ih]

/-- C2: for every build input, the entity id returned by the manifest
builder equals the content identifier of the manifest's serialized bytes
computed with the id field held at the empty sentinel — blanking the id
of the final manifest recovers exactly the bytes that were hashed — and
that single id is the one set on the manifest. -/
theorem manifest_id_fixed_point (A : Ambient) (pointers : List String)
    (files : List (String × Bytes)) (entity : Entity) :
    (build_entity_scene A pointers files entity).2
      = EntityId.mk (get_cid A (A.serdeSerializeEntity
          { build_entity_scene_entity A pointers files entity with id := EntityId.mk "" }))
    ∧ (build_entity_scene_entity A pointers files entity).id
        = (build_entity_scene A pointers files entity).2 := by
  constructor <;> rfl

/-- C3 (amended): the last `FileData` of the builder's output carries as
payload the manifest bytes serialized with the id still the empty
sentinel — the very bytes that were hashed — its cid equals the
manifest's own id, and its MIME type is the generic binary type. -/
theorem manifest_payload_entry (A : Ambient) (pointers : List String)
    (files : List (String × Bytes)) (entity : Entity) :
    (build_entity_scene A pointers files entity).1.getLast?
      = some { cid := ((build_entity_scene A pointers files entity).2).hash,
               bytes := A.serdeSerializeEntity
                 { build_entity_scene_entity A pointers files entity with id := EntityId.mk "" },
               mime_str := "application/octet-stream" } := by
  show ((build_entity_scene_core A pointers files entity).1 ++ [_]).getLast? = _
  rw [List.getLast?_concat]
  rfl

/-- C3 (counterexample): under an id-sensitive canonical serialization,
the payload of the last `FileData` is the id-empty serialization `[5, 5]`
and not the serialization of the final manifest with its id populated,
which is `[1, 2, 3]`; the final manifest's id is indeed populated. -/
theorem manifest_payload_counterexample :
    ((build_entity_scene ambBuild [] [] entEmpty).1.getLast?).map FileData.bytes = some [5, 5]
    ∧ ambBuild.serdeSerializeEntity (build_entity_scene_entity ambBuild [] [] entEmpty)
        = [1, 2, 3]
    ∧ (build_entity_scene_entity ambBuild [] [] entEmpty).id ≠ EntityId.mk "" := by
  refine ⟨?_, ?_, ?_⟩ <;> decide

/-- C5 (amended): envelope encoding is total and never fails: every chain
contributes exactly three text fields per link, so the envelope has
`1 + 3n + k` parts for a chain of `n` links and `k` files, and the empty
chain yields the envelope with no auth fields at all. -/
theorem auth_encoding_total (entity_id : String) (deploy_data : List FileData)
    (auth_chain : AuthChain) :
    (build_entity_form_data_for_deployment entity_id deploy_data auth_chain).length
        = 1 + 3 * auth_chain.length + deploy_data.length
    ∧ build_entity_form_data_for_deployment entity_id deploy_data []
        = { name := "entityId", body := PartBody.text entity_id }
            :: deploy_data.map filePart := by
  constructor
  · simp [build_entity_form_data_for_deployment, (authChainParts_shape auth_chain 0).1]
    omega
  · rfl

/-- C5 (counterexample): encoding an empty authentication chain does not
fail with any error; it returns the plain envelope holding only the
`entityId` part. -/
theorem empty_auth_chain_encodes :
    build_entity_form_data_for_deployment "id" [] []
      = [{ name := "entityId", body := PartBody.text "id" }] := rfl

/-- C6 (amended): `snapshot_entities` parses exactly the lines whose first
character (position 0) is the opening brace, sequentially and failing the
whole call at the first such line the parser rejects; every other line —
blank, whitespace-prefixed, or otherwise — is skipped. A 3-line document
whose line 2 is blank and whose line 3 is a valid record starting at
position 0 yields exactly one parsed record. -/
theorem snapshot_parsing_characterization :
    (∀ (T : Type) (p : String → Except String T) (text : String),
        snapshot_entities p text
          = traverseExcept p ((rustLines text).filter lineStartsRecord))
    ∧ snapshot_entities c6Parse "x\n\n\x7b\"a\":1\x7d" = Except.ok [1] := by
  constructor
  · intro T p text
    exact parseSnapshotLines_eq p (rustLines text)
  · decide

/-- C6 (counterexample): a line beginning with the opening brace that is
not valid JSON makes the whole call fail rather than being skipped, and a
line whose first non-whitespace (but not first) character is the opening
brace is skipped without ever being offered to the parser. -/
theorem snapshot_malformed_line_aborts :
    snapshot_entities c6Parse "x\n\n\x7b" = Except.error "malformed"
    ∧ snapshot_entities alwaysOkParse " \x7b\"a\":1\x7d" = Except.ok [] := by
  constructor <;> decide

/-- C8 (amended): the existence probe returns true exactly when the HEAD
response status is 200 OK; every other status — other success statuses
included, as well as not-found — yields false rather than an error. -/
theorem content_file_exists_iff_200 (status : Nat) :
    content_file_exists status = true ↔ status = 200 := by
  simp [content_file_exists]

/-- C8 (counterexample): status 204 is in the HTTP success class, yet the
probe reports the content as absent. -/
theorem content_file_exists_success_not_ok :
    specSuccessStatus 204 = true ∧ content_file_exists 204 = false := by
  decide

/-- C9: the built manifest's content list is the previous manifest's
entries with every transient-prefixed entry removed and all others
retained unchanged and in order, followed by the entries staged for the
local files. -/
theorem inherited_content_filtered (A : Ambient) (pointers : List String)
    (files : List (String × Bytes)) (entity : Entity) :
    (build_entity_scene_entity A pointers files entity).content
      = entity.content.filter (fun c => !isTransientFile c)
        ++ files.map (stagedContentEntry A) := by
  show (build_entity_scene_core A pointers files entity).2.content = _
  rw [show (build_entity_scene_core A pointers files entity).2.content
        = (files.foldl (stageFile A) (removeTransient entity.content, [])).1 from rfl]
  rw [stageFile_foldl A files (removeTransient entity.content) []]
  rw [removeTransient_eq_filter]

/-- C1 (amended): for a deployment whose manifest carries Scene-kind
metadata, validation compares pointer lists by exact ordered equality:
it proceeds to submission exactly when the metadata's parcel strings
equal the candidate pointers as a list and the remote lookup returns
either no entity or exactly one entity whose pointer list equals the
candidate's in the same order; in every other case it fails with
`InvalidPointers` (a same-set different-order remote claim is rejected,
not accepted). -/
theorem scene_pointer_validation (A : Ambient) (dd : List FileData)
    (lookup : List Parcel → List SceneFile) (e : Entity) (s3 : Scene3D)
    (hfind : find_entity A dd = some e)
    (hmeta : e.metadata = some (Metadata.scene s3)) :
    (deployValidate A dd lookup = DeployOutcome.submit ↔
      (parcels_vec_to_strings_vec s3.scene.parcels = e.pointers ∧
        (lookup s3.scene.parcels = [] ∨
          ∃ sf, lookup s3.scene.parcels = [sf] ∧ sf.pointers = e.pointers)))
    ∧ (deployValidate A dd lookup = DeployOutcome.submit ∨
        ∃ f ex, deployValidate A dd lookup = DeployOutcome.invalidPointers f ex) := by
  simp only [deployValidate, hfind, hmeta, sceneValidate]
  by_cases hm : parcels_vec_to_strings_vec s3.scene.parcels = e.pointers
  · rw [if_neg (by simp [hm])]
    cases hl : lookup s3.scene.parcels with
    | nil =>
      refine ⟨?_, ?_⟩
      · simp [remoteConflict, hm]
      · simp [remoteConflict]
    | cons sf0 rest =>
      simp only [remoteConflict]
      by_cases hc : (sf0 :: rest).length > 1 ∨ sf0.pointers ≠ e.pointers
      · rw [if_pos hc]
        constructor
        · constructor
          · intro h
            exact absurd h (by simp)
          · rintro ⟨-, h0 | ⟨sf, hsf, hp⟩⟩
            · exact absurd h0 (by simp)
            · injection hsf with h1 h2
              rcases hc with hlen | hne
              · rw [h2] at hlen
                simp at hlen
              · exact absurd (h1 ▸ hp) hne
        · right; exact ⟨_, _, rfl⟩
      · rw [if_neg hc]
        push_neg at hc
        obtain ⟨hlen, hpeq⟩ := hc
        have hrest : rest = [] := by
          cases rest with
          | nil => rfl
          | cons a as =>
            exfalso
            simp only [List.length_cons] at hlen
            omega
        subst hrest
        constructor
        · exact ⟨fun _ => ⟨hm, Or.inr ⟨sf0, rfl, hpeq⟩⟩, fun _ => rfl⟩
        · left; rfl
  · rw [if_pos (by simp [hm])]
    constructor
    · constructor
      · intro h
        exact absurd h (by simp)
      · rintro ⟨hm2, -⟩
        exact absurd hm2 hm
    · right; exact ⟨_, _, rfl⟩

/-- C1 (witness). -/
theorem scene_pointer_validation_witness :
    deployValidate (ambOf entTwoParcels) ddOne (fun _ => []) = DeployOutcome.submit := by
  have h := (scene_pointer_validation (ambOf entTwoParcels) ddOne (fun _ => [])
      entTwoParcels { scene := { parcels := [{ x := 0, y := 0 }, { x := 0, y := 1 }] } }
      (by decide) rfl).1
  exact h.mpr ⟨by decide, Or.inl rfl⟩

/-- C1 (counterexample): a remote entity claims exactly the candidate's
pointer set but lists it in a different order; the claim calls this an
exact full-ownership redeployment that succeeds regardless of pointer
order, yet validation rejects it with `InvalidPointers`. -/
theorem scene_pointer_validation_counterexample :
    deployValidate (ambOf entTwoParcels) ddOne
        (fun _ => [{ id := EntityId.mk "A", pointers := ["0,1", "0,0"] }])
      = DeployOutcome.invalidPointers ["0,0", "0,1"] ["0,1", "0,0"]
    ∧ List.Perm ["0,1", "0,0"] ["0,0", "0,1"] := by
  constructor <;> decide

/-- C4 (amended): when the remote lookup's non-empty answer triggers the
pointer-conflict failure, the error's `parcels_found` field holds the
candidate manifest's pointers and its `expected_parcels` field holds the
first remote entity's pointer list (the opposite of the claim's
assignment). -/
theorem remote_conflict_error_fields (A : Ambient) (dd : List FileData)
    (lookup : List Parcel → List SceneFile) (e : Entity) (s3 : Scene3D)
    (sf0 : SceneFile) (rest : List SceneFile)
    (hfind : find_entity A dd = some e)
    (hmeta : e.metadata = some (Metadata.scene s3))
    (hmatch : parcels_vec_to_strings_vec s3.scene.parcels = e.pointers)
    (hlook : lookup s3.scene.parcels = sf0 :: rest)
    (hconf : (sf0 :: rest).length > 1 ∨ sf0.pointers ≠ e.pointers) :
    deployValidate A dd lookup = DeployOutcome.invalidPointers e.pointers sf0.pointers := by
  simp only [deployValidate, hfind, hmeta, sceneValidate, hlook, remoteConflict]
  rw [if_neg (by simp [hmatch]), if_pos hconf]

/-- C4 (witness). -/
theorem remote_conflict_error_fields_witness :
    deployValidate (ambOf entOneParcel) ddOne
        (fun _ => [{ id := EntityId.mk "A", pointers := ["0,0", "0,1"] }])
      = DeployOutcome.invalidPointers ["0,0"] ["0,0", "0,1"] :=
  remote_conflict_error_fields (ambOf entOneParcel) ddOne
    (fun _ => [{ id := EntityId.mk "A", pointers := ["0,0", "0,1"] }])
    entOneParcel { scene := { parcels := [{ x := 0, y := 0 }] } }
    { id := EntityId.mk "A", pointers := ["0,0", "0,1"] } []
    (by decide) rfl (by decide) rfl (by decide)

/-- C4 (counterexample): a partial-overlap conflict (candidate `0,0`,
remote claim `0,0`,`0,1`) produces `InvalidPointers` with
`parcels_found = ["0,0"]` (the candidate's pointers) and
`expected_parcels = ["0,0","0,1"]` (the remote pointer set) — not the
assignment the claim states, since the two field values differ. -/
theorem remote_conflict_error_fields_counterexample :
    deployValidate (ambOf entOneParcel) ddOne
        (fun _ => [{ id := EntityId.mk "A", pointers := ["0,0", "0,1"] }])
      = DeployOutcome.invalidPointers ["0,0"] ["0,0", "0,1"]
    ∧ DeployOutcome.invalidPointers ["0,0"] ["0,0", "0,1"]
        ≠ DeployOutcome.invalidPointers ["0,0", "0,1"] ["0,0"] := by
  constructor <;> decide

/-- C10: when the manifest found in the deployment data carries metadata
that is absent or not of Scene kind, validation proceeds straight to
submission whatever the remote authority would answer — the lookup is
never consulted — and, conversely, an `InvalidPointers` outcome is only
ever produced for a manifest carrying Scene-kind metadata. -/
theorem non_scene_metadata_skips_validation (A : Ambient) (dd : List FileData)
    (e : Entity) (hfind : find_entity A dd = some e)
    (hns : ∀ s3, e.metadata ≠ some (Metadata.scene s3)) :
    (∀ lookup, deployValidate A dd lookup = DeployOutcome.submit)
    ∧ ∀ (dd2 : List FileData) (lookup : List Parcel → List SceneFile)
        (f ex : List String),
        deployValidate A dd2 lookup = DeployOutcome.invalidPointers f ex →
          ∃ e2 s2, find_entity A dd2 = some e2
            ∧ e2.metadata = some (Metadata.scene s2) := by
  constructor
  · intro lookup
    cases hm : e.metadata with
    | none => simp [deployValidate, hfind, hm]
    | some m =>
      cases m with
      | scene s3 => exact absurd hm (hns s3)
      | other => simp [deployValidate, hfind, hm]
  · intro dd2 lookup f ex h
    cases hfe : find_entity A dd2 with
    | none => simp [deployValidate, hfe] at h
    | some e2 =>
      cases hm : e2.metadata with
      | none => simp [deployValidate, hfe, hm] at h
      | some m =>
        cases m with
        | scene s2 => exact ⟨e2, s2, rfl, hm⟩
        | other => simp [deployValidate, hfe, hm] at h

/-- C10 (witness). -/
theorem non_scene_metadata_skips_validation_witness :
    deployValidate (ambOf entNonScene) ddOne
        (fun _ => [{ id := EntityId.mk "A", pointers := ["9,9"] }])
      = DeployOutcome.submit :=
  (non_scene_metadata_skips_validation (ambOf entNonScene) ddOne entNonScene
      (by decide) (fun s3 h => by simp [entNonScene] at h)).1 _

/-- C7 (amended): every `FileData` staged by the manifest builder — the
appended manifest entry included — has its cid equal to the content
identifier of its own bytes, so two entries with identical byte contents
receive the same ContentId and therefore the same part name; but the
envelope does not collapse them: it contains exactly one binary part per
`FileData` entry, named by that entry's cid, with duplicates repeated. -/
theorem file_dedup_parts (A : Ambient) :
    (∀ (pointers : List String) (files : List (String × Bytes)) (entity : Entity)
        (fd : FileData), fd ∈ (build_entity_scene A pointers files entity).1 →
          fd.cid = get_cid A fd.bytes)
    ∧ (∀ (pointers : List String) (files : List (String × Bytes)) (entity : Entity)
        (fd1 fd2 : FileData), fd1 ∈ (build_entity_scene A pointers files entity).1 →
          fd2 ∈ (build_entity_scene A pointers files entity).1 →
          fd1.bytes = fd2.bytes → fd1.cid = fd2.cid)
    ∧ ∀ (entity_id : String) (deploy_data : List FileData) (auth_chain : AuthChain),
        (build_entity_form_data_for_deployment entity_id deploy_data auth_chain).filter
            isBytesPart
          = deploy_data.map filePart := by
  have h1 : ∀ (pointers : List String) (files : List (String × Bytes)) (entity : Entity)
      (fd : FileData), fd ∈ (build_entity_scene A pointers files entity).1 →
        fd.cid = get_cid A fd.bytes := by
    intro pointers files entity fd hfd
    have hb : (build_entity_scene A pointers files entity).1
        = files.map (stagedFileData A)
          ++ [{ cid := get_cid A (A.serdeSerializeEntity
                  (build_entity_scene_core A pointers files entity).2),
                bytes := A.serdeSerializeEntity
                  (build_entity_scene_core A pointers files entity).2,
                mime_str := "application/octet-stream" }] := by
      show (build_entity_scene_core A pointers files entity).1 ++ [_] = _
      rw [show (build_entity_scene_core A pointers files entity).1
            = (files.foldl (stageFile A) (removeTransient entity.content, [])).2 from rfl]
      rw [stageFile_foldl A files (removeTransient entity.content) []]
      simp
    rw [hb] at hfd
    rcases List.mem_append.mp hfd with hmem | hmem
    · obtain ⟨pb, -, rfl⟩ := List.mem_map.mp hmem
      rfl
    · rw [List.mem_singleton.mp hmem]
  refine ⟨h1, ?_, ?_⟩
  · intro pointers files entity fd1 fd2 hm1 hm2 hbytes
    rw [h1 pointers files entity fd1 hm1, h1 pointers files entity fd2 hm2, hbytes]
  · intro eid dd chain
    simp only [build_entity_form_data_for_deployment]
    rw [List.filter_append]
    have ha : (({ name := "entityId", body := PartBody.text eid } : FormPart)
          :: authChainParts 0 chain).filter isBytesPart = [] := by
      rw [List.filter_cons]
      simp [isBytesPart, (authChainParts_shape chain 0).2]
    rw [ha, List.nil_append]
    apply List.filter_eq_self.mpr
    intro p hp
    obtain ⟨f, -, rfl⟩ := List.mem_map.mp hp
    rfl

/-- C7 (witness). -/
theorem file_dedup_parts_witness :
    (stagedFileData ambBuild ("a", [7])).cid = (stagedFileData ambBuild ("b", [7])).cid :=
  (file_dedup_parts ambBuild).2.1 [] [("a", [7]), ("b", [7])] entEmpty
    (stagedFileData ambBuild ("a", [7])) (stagedFileData ambBuild ("b", [7]))
    (by decide) (by decide) rfl

/-- C7 (counterexample): two local files with identical bytes receive the
same ContentId, yet the assembled envelope carries three binary parts —
two of them bearing the same name — for only two distinct ContentIds, so
the envelope does not contain exactly one binary part per distinct
ContentId. -/
theorem duplicate_content_duplicate_parts :
    ((build_entity_form_data_for_deployment "eid"
          (build_entity_scene ambBuild [] [("a", [7]), ("b", [7])] entEmpty).1 []).filter
        isBytesPart).map FormPart.name = ["cid-1", "cid-1", "cid-2"]
    ∧ (["cid-1", "cid-1", "cid-2"] : List String).dedup = ["cid-1", "cid-2"] := by
  constructor <;> decide
